import Mathlib

/-!
Verification development for the Webflow documentation agent
(`webflow_agent.py`, `example_usage.py`).

The development shallowly embeds the Python code:

* JSON-like values (`Value`) model the nested dictionaries exchanged with
  the remote service; Python dictionaries are insertion-ordered association
  lists, with `getKey` / `setKey` / `hasKey` modelling `d.get(k)`,
  `d[k] = v` and `k in d`.
* `list_items`, `get_item`, `update_item` and the update branch of `main`
  are translated from `webflow_agent.py`; the HTTP transport is an
  injected function, `none` standing for a `requests` exception or a
  non-2xx response (which `_make_request` turns into `sys.exit(1)`,
  modelled as `Except.error 1`).  The `while` loop of `list_items` is
  embedded with explicit fuel; a run out of fuel is `none`
  (non-termination of the loop within the allotted number of iterations).
* The document path accessor (`read` / `write`) is modelled from the
  specification, since no such code exists in the repository sources.
-/

set_option maxRecDepth 8000

namespace WebflowDoc

/-- JSON-like values: the dynamic data handled by the agent.  Objects are
insertion-ordered association lists, mirroring Python dictionaries. -/
inductive Value where
  | null : Value
  | bool : Bool → Value
  | num : Int → Value
  | str : String → Value
  | arr : List Value → Value
  | obj : List (String × Value) → Value

/-- Lookup of a key in an object's field list, modelling `d.get(k)` /
`d[k]` on a Python dictionary (keys are unique there; here the first
occurrence wins). -/
def getKey : List (String × Value) → String → Option Value
  | [], _ => none
  | (k', v) :: rest, k => if k' = k then some v else getKey rest k

/-- Key update modelling `d[k] = v` on a Python dictionary: replace the
value in place if the key is present (keeping its position), otherwise
append the new binding at the end. -/
def setKey : List (String × Value) → String → Value → List (String × Value)
  | [], k, v => [(k, v)]
  | (k', v') :: rest, k, v =>
    if k' = k then (k, v) :: rest else (k', v') :: setKey rest k v

/-- Membership test modelling `k in d` on a Python dictionary. -/
def hasKey (fields : List (String × Value)) (k : String) : Bool :=
  (getKey fields k).isSome

theorem getKey_setKey_self (fields : List (String × Value)) (k : String) (v : Value) :
    getKey (setKey fields k v) k = some v := by
  induction fields with
  | nil => simp [setKey, getKey]
  | cons kv rest ih =>
    obtain ⟨k', v'⟩ := kv
    by_cases h : k' = k <;> simp [setKey, getKey, h, ih]

theorem getKey_setKey_ne (fields : List (String × Value)) (k k' : String) (v : Value)
    (h : k ≠ k') : getKey (setKey fields k v) k' = getKey fields k' := by
  induction fields with
  | nil => simp [setKey, getKey, h]
  | cons kv rest ih =>
    obtain ⟨k0, v0⟩ := kv
    by_cases h0 : k0 = k
    · subst h0
      simp [setKey, getKey, h]
    · simp [setKey, getKey, h0, ih]

/-- True exactly on JSON objects (Python mappings). -/
def isObj : Value → Bool
  | Value.obj _ => true
  | _ => false

/-- The field list of a value, empty when the value is not a mapping. -/
def asFields : Value → List (String × Value)
  | Value.obj fields => fields
  | _ => []

/-- Modelled from the spec: `DocumentPathAccessor.read(document, path)`.
No such code exists in the repository sources (only `example_usage.py`
calls it); the definition follows section 4.1 of the specification: an
empty path returns the document itself; otherwise each segment in order
descends into a mapping key, and a missing key or a non-mapping value
reports absence (`none`) as a normal return value. -/
def read : Value → List String → Option Value
  | d, [] => some d
  | d, seg :: rest =>
    match d with
    | Value.obj fields =>
      match getKey fields seg with
      | some child => read child rest
      | none => none
    | _ => none

/-- Modelled from the spec: `DocumentPathAccessor.write(document, path,
newValue)`.  No such code exists in the repository sources; the definition
follows section 4.1 of the specification: walk all segments but the last,
auto-vivifying an empty mapping whenever the segment is missing or the
value found there is not a mapping (so that the round-trip property of
section 8 holds for every document), and set the final segment to the new
value, overwriting whatever was there.  An empty path is a precondition
violation (`EmptyPathError`); the model returns the document unchanged
there and every theorem assumes a non-empty path.

The container descended into at one intermediate segment is `vivify`:
the existing nested mapping when one is present, and a freshly created
empty mapping when the segment is missing or holds a non-mapping value
(auto-vivification). -/
def vivify (d : Value) (seg : String) : Value :=
  match getKey (asFields d) seg with
  | some c => if isObj c then c else Value.obj []
  | none => Value.obj []

def write : Value → List String → Value → Value
  | d, [], _ => d
  | d, seg :: rest, v =>
    match rest with
    | [] => Value.obj (setKey (asFields d) seg v)
    | _ :: _ => Value.obj (setKey (asFields d) seg (write (vivify d seg) rest v))

theorem read_write_roundtrip (d : Value) (p : List String) (v : Value)
    (hp : p ≠ []) : read (write d p v) p = some v := by
  induction p generalizing d with
  | nil => exact absurd rfl hp
  | cons seg rest ih =>
    cases rest with
    | nil => simp [write, read, getKey_setKey_self]
    | cons s2 r2 =>
      simp only [write, read, getKey_setKey_self]
      exact ih _ (by simp)

/-- Two paths diverge when neither is a prefix of the other: they agree on
some (possibly empty) initial run of segments and then both continue with
distinct segments.  A key (or deeper path) off the ancestry of a write
path is exactly one whose path diverges from it. -/
def diverges : List String → List String → Bool
  | [], _ => false
  | _ :: _, [] => false
  | a :: p, b :: q => if a = b then diverges p q else true

theorem diverges_nonnil_left {p q : List String} (h : diverges p q = true) :
    p ≠ [] := by
  cases p with
  | nil => simp [diverges] at h
  | cons a p => simp

theorem diverges_nonnil_right {p q : List String} (h : diverges p q = true) :
    q ≠ [] := by
  cases p with
  | nil => simp [diverges] at h
  | cons a p =>
    cases q with
    | nil => simp [diverges] at h
    | cons b q => simp

theorem read_nonobj (d : Value) (seg : String) (rest : List String)
    (h : isObj d = false) : read d (seg :: rest) = none := by
  cases d <;> simp_all [isObj, read]

theorem asFields_nonobj (d : Value) (h : isObj d = false) : asFields d = [] := by
  cases d <;> simp_all [isObj, asFields]

theorem read_cons_some (d : Value) (seg : String) (rest : List String)
    (c : Value) (h : getKey (asFields d) seg = some c) :
    read d (seg :: rest) = read c rest := by
  cases d <;> simp_all [read, asFields, getKey]

theorem read_cons_none (d : Value) (seg : String) (rest : List String)
    (h : getKey (asFields d) seg = none) :
    read d (seg :: rest) = none := by
  cases d <;> simp_all [read, asFields]

theorem write_cons_cons (d : Value) (seg s2 : String) (r2 : List String)
    (v : Value) :
    write d (seg :: s2 :: r2) v =
      Value.obj (setKey (asFields d) seg (write (vivify d seg) (s2 :: r2) v)) := by
  simp [write]

/-- Reading below the vivified child agrees with reading below the
original document, for any continuation of length at least one. -/
theorem read_vivify (d : Value) (seg t2 : String) (u2 : List String) :
    read (vivify d seg) (t2 :: u2) = read d (seg :: t2 :: u2) := by
  cases hg : getKey (asFields d) seg with
  | none =>
    rw [read_cons_none d seg _ hg]
    simp [vivify, hg, read, getKey]
  | some c =>
    rw [read_cons_some d seg _ c hg]
    cases hc : isObj c with
    | true => simp [vivify, hg, hc]
    | false =>
      rw [read_nonobj c t2 u2 hc]
      simp [vivify, hg, hc, read, getKey]

theorem write_off_path (d : Value) (p q : List String) (v : Value)
    (h : diverges p q = true) : read (write d p v) q = read d q := by
  induction p generalizing d q with
  | nil => simp [diverges] at h
  | cons a p' ih =>
    cases q with
    | nil => simp [diverges] at h
    | cons b q' =>
      by_cases hab : a = b
      · subst hab
        have h' : diverges p' q' = true := by
          simpa [diverges] using h
        have hp' : p' ≠ [] := diverges_nonnil_left h'
        have hq' : q' ≠ [] := diverges_nonnil_right h'
        obtain ⟨s2, r2, rfl⟩ : ∃ s2 r2, p' = s2 :: r2 := by
          cases p' with
          | nil => exact absurd rfl hp'
          | cons s2 r2 => exact ⟨s2, r2, rfl⟩
        obtain ⟨t2, u2, rfl⟩ : ∃ t2 u2, q' = t2 :: u2 := by
          cases q' with
          | nil => exact absurd rfl hq'
          | cons t2 u2 => exact ⟨t2, u2, rfl⟩
        have hself : getKey
            (asFields (Value.obj
              (setKey (asFields d) a (write (vivify d a) (s2 :: r2) v)))) a =
            some (write (vivify d a) (s2 :: r2) v) := by
          simp [asFields, getKey_setKey_self]
        rw [write_cons_cons, read_cons_some _ _ _ _ hself,
          ih (vivify d a) _ h', read_vivify]
      · have hwrite : ∃ X, write d (a :: p') v =
            Value.obj (setKey (asFields d) a X) := by
          cases p' with
          | nil => exact ⟨v, by simp [write]⟩
          | cons s2 r2 => exact ⟨_, write_cons_cons d a s2 r2 v⟩
        obtain ⟨X, hX⟩ := hwrite
        have hkb : getKey (asFields (Value.obj (setKey (asFields d) a X))) b =
            getKey (asFields d) b := by
          simp [asFields, getKey_setKey_ne _ _ _ _ hab]
        rw [hX]
        cases hg2 : getKey (asFields d) b with
        | none => rw [read_cons_none _ _ _ (hkb.trans hg2), read_cons_none d b q' hg2]
        | some c => rw [read_cons_some _ _ _ _ (hkb.trans hg2), read_cons_some d b q' c hg2]

theorem write_preserves_sibling (d : Value) (k0 : String) (p' : List String)
    (v : Value) (k : String) (hk : k ≠ k0) :
    getKey (asFields (write d (k0 :: p') v)) k = getKey (asFields d) k := by
  cases p' with
  | nil => simp [write, asFields, getKey_setKey_ne _ _ _ _ (Ne.symm hk)]
  | cons s2 r2 => simp [write, asFields, getKey_setKey_ne _ _ _ _ (Ne.symm hk)]

/-!
Embedding of the HTTP-facing methods of `WebflowAgent`
(`src/webflow_agent.py`).  A transport answer of `none` models a
`requests.exceptions.RequestException`: a network failure or, through
`response.raise_for_status()`, a non-2xx HTTP response.  `_make_request`
catches it, prints the error and calls `sys.exit(1)`; process exit with
status `c` is modelled as `Except.error c`.
-/

/-- One HTTP request as issued by `_make_request`: method, endpoint and
optional JSON body. -/
structure Request where
  method : String
  endpoint : String
  body : Option (List (String × Value))

/-- Embeds `_make_request` given the transport's answer for the request:
a successful call returns `response.json()`, a `RequestException` leads
to `sys.exit(1)`. -/
def make_request (resp : Option Value) : Except Nat Value :=
  match resp with
  | some v => Except.ok v
  | none => Except.error 1

/-- One page of the list endpoint as consumed by `list_items`:
`response.get("items", [])` and the optional `pagination` object with its
`total` field. -/
structure Page where
  items : List Value
  pagination : Option Nat

/-- Embeds `pagination = response.get("pagination", {});
total_items = pagination.get("total", 0)`: a missing pagination object or
total defaults to `0`. -/
def pageTotal (p : Page) : Nat := p.pagination.getD 0

/-- Items of the page a server answers at a given offset (empty when the
request at that offset fails). -/
def srvItems (server : Nat → Option Page) (o : Nat) : List Value :=
  match server o with
  | some p => p.items
  | none => []

/-- Reported total of the page a server answers at a given offset. -/
def srvTotal (server : Nat → Option Page) (o : Nat) : Nat :=
  match server o with
  | some p => pageTotal p
  | none => 0

/-- The `while` condition of `list_items`:
`total_items is None or offset < total_items`. -/
def contLoop (offset : Nat) : Option Nat → Bool
  | none => true
  | some t => decide (offset < t)

/-- Outcome of one `list_items` run: the offsets of the page requests
issued, in order, and either the accumulated items or the process exit
code from `_make_request`. -/
structure Trace where
  offsets : List Nat
  result : Except Nat (List Value)

/-- Embeds the `while` loop of `list_items` with explicit fuel (`none`
when the loop does not terminate within the fuel).  Each iteration checks
the loop condition, requests the page at the current offset, appends its
items, stores the reported total, breaks if the page is short, and
otherwise advances the offset by `limit`.  A failing request aborts the
whole run via `sys.exit(1)`, discarding the items accumulated so far. -/
def listItemsGo (limit : Nat) (server : Nat → Option Page) :
    Nat → Nat → Option Nat → Option Trace
  | 0, _, _ => none
  | fuel + 1, offset, total =>
    if contLoop offset total then
      match server offset with
      | none => some ⟨[offset], Except.error 1⟩
      | some p =>
        if p.items.length < limit then
          some ⟨[offset], Except.ok p.items⟩
        else
          match listItemsGo limit server fuel (offset + limit) (some (pageTotal p)) with
          | none => none
          | some tr =>
            some ⟨offset :: tr.offsets, Except.map (fun its => p.items ++ its) tr.result⟩
    else
      some ⟨[], Except.ok []⟩

/-- Embeds `WebflowAgent.list_items`: run the pagination loop from
`offset = 0` with `total_items = None`. -/
def list_items (limit : Nat) (server : Nat → Option Page) (fuel : Nat) :
    Option Trace :=
  listItemsGo limit server fuel 0 none

/-- Request offsets plus item count (on success) or `none` (on abort) of
a run, for concrete evaluation. -/
def run_summary (r : Option Trace) : Option (List Nat × Option Nat) :=
  r.map fun tr =>
    (tr.offsets,
     match tr.result with
     | Except.ok its => some its.length
     | Except.error _ => none)

/-- A page of `n` placeholder items with an optionally reported total. -/
def mk_page (n : Nat) (total : Option Nat) : Page :=
  ⟨List.replicate n Value.null, total⟩

/-- Mock server of the specification's first pagination example: pages of
sizes 100, 100 and 37, each reporting a total of 237. -/
def server_A (o : Nat) : Option Page :=
  if o = 0 then some (mk_page 100 (some 237))
  else if o = 100 then some (mk_page 100 (some 237))
  else if o = 200 then some (mk_page 37 (some 237))
  else some (mk_page 0 (some 237))

/-- Mock server of the specification's second pagination example: pages
of sizes 100 and 60 with reported total 200; a third page exists but must
never be requested. -/
def server_B (o : Nat) : Option Page :=
  if o = 0 then some (mk_page 100 (some 200))
  else if o = 100 then some (mk_page 60 (some 200))
  else some (mk_page 40 (some 200))

/-- Adversarial server: the first page returns 150 items (more than the
page size of 100) and reports a total of 150. -/
def server_C (o : Nat) : Option Page :=
  if o = 0 then some (mk_page 150 (some 150))
  else if o = 100 then some (mk_page 1 (some 150))
  else some (mk_page 0 (some 150))

/-- Mock server whose single page fails the page-size bound trivially:
every page is empty with total 0. -/
def server_triv (_ : Nat) : Option Page :=
  some (mk_page 0 (some 0))

/-- Mock server where the request for the second page (offset 100) fails
with a transport error. -/
def server_fail2 (o : Nat) : Option Page :=
  if o = 0 then some (mk_page 100 (some 300))
  else if o = 100 then none
  else some (mk_page 100 (some 300))

theorem sum_map_const_of {α : Type} (l : List α) (g : α → Nat) (c : Nat)
    (h : ∀ x ∈ l, g x = c) : (l.map g).sum = l.length * c := by
  induction l with
  | nil => simp
  | cons x xs ih =>
    have hx := h x (by simp)
    have hxs := ih fun y hy => h y (by simp [hy])
    simp [hx, hxs, Nat.succ_mul]
    omega

theorem listItemsGo_stop (limit : Nat) (server : Nat → Option Page)
    (fuel offset : Nat) (total : Option Nat)
    (hc : contLoop offset total = false) :
    listItemsGo limit server (fuel + 1) offset total =
      some ⟨[], Except.ok []⟩ := by
  simp [listItemsGo, hc]

theorem listItemsGo_fail (limit : Nat) (server : Nat → Option Page)
    (fuel offset : Nat) (total : Option Nat)
    (hc : contLoop offset total = true) (hs : server offset = none) :
    listItemsGo limit server (fuel + 1) offset total =
      some ⟨[offset], Except.error 1⟩ := by
  simp [listItemsGo, hc, hs]

theorem listItemsGo_short (limit : Nat) (server : Nat → Option Page)
    (fuel offset : Nat) (total : Option Nat) (p : Page)
    (hc : contLoop offset total = true) (hs : server offset = some p)
    (hshort : p.items.length < limit) :
    listItemsGo limit server (fuel + 1) offset total =
      some ⟨[offset], Except.ok p.items⟩ := by
  simp [listItemsGo, hc, hs, hshort]

theorem listItemsGo_full (limit : Nat) (server : Nat → Option Page)
    (fuel offset : Nat) (total : Option Nat) (p : Page)
    (hc : contLoop offset total = true) (hs : server offset = some p)
    (hfull : ¬ p.items.length < limit) :
    listItemsGo limit server (fuel + 1) offset total =
      match listItemsGo limit server fuel (offset + limit) (some (pageTotal p)) with
      | none => none
      | some tr =>
        some ⟨offset :: tr.offsets, Except.map (fun its => p.items ++ its) tr.result⟩ := by
  simp [listItemsGo, hc, hs, hfull]

/-- Characterization of every terminating, successful `list_items` loop
run, for a server whose pages never exceed the page size: the requested
offsets advance from the start offset in steps of `limit`, every page's
items are appended in order, every non-final page is full and leaves the
offset below the reported total, no request is issued exactly when the
entry condition fails, and after the final page the loop condition is
falsified either by a short page or by the offset having reached the
reported total. -/
theorem listItemsGo_ok_spec (limit : Nat) (server : Nat → Option Page)
    (hbound : ∀ o, (srvItems server o).length ≤ limit) :
    ∀ fuel offset total tr its,
      listItemsGo limit server fuel offset total = some tr →
      tr.result = Except.ok its →
      tr.offsets = (List.range tr.offsets.length).map (fun i => offset + i * limit)
      ∧ (∀ o ∈ tr.offsets, (server o).isSome = true)
      ∧ its = (tr.offsets.map (srvItems server)).flatten
      ∧ (∀ i, i + 1 < tr.offsets.length →
          (srvItems server (offset + i * limit)).length = limit
          ∧ offset + (i + 1) * limit < srvTotal server (offset + i * limit))
      ∧ (tr.offsets = [] ↔ contLoop offset total = false)
      ∧ (tr.offsets ≠ [] →
          (srvItems server (offset + (tr.offsets.length - 1) * limit)).length < limit
          ∨ srvTotal server (offset + (tr.offsets.length - 1) * limit)
              ≤ offset + tr.offsets.length * limit) := by
  intro fuel
  induction fuel with
  | zero =>
    intro offset total tr its hrun hres
    simp [listItemsGo] at hrun
  | succ fuel ih =>
    intro offset total tr its hrun hres
    cases hcont : contLoop offset total with
    | false =>
      rw [listItemsGo_stop limit server fuel offset total hcont] at hrun
      obtain rfl : Trace.mk [] (Except.ok []) = tr := Option.some.inj hrun
      obtain rfl : its = [] := by
        simpa using hres.symm
      refine ⟨by simp, by simp, by simp, ?_, by simp [hcont], by simp⟩
      intro i hi
      simp at hi
    | true =>
      cases hs : server offset with
      | none =>
        rw [listItemsGo_fail limit server fuel offset total hcont hs] at hrun
        obtain rfl : Trace.mk [offset] (Except.error 1) = tr := Option.some.inj hrun
        simp at hres
      | some p =>
        by_cases hshort : p.items.length < limit
        · rw [listItemsGo_short limit server fuel offset total p hcont hs hshort] at hrun
          obtain rfl : Trace.mk [offset] (Except.ok p.items) = tr := Option.some.inj hrun
          obtain rfl : its = p.items := by simpa using hres.symm
          have hsrv : srvItems server offset = p.items := by simp [srvItems, hs]
          refine ⟨by simp [List.range_succ], ?_, ?_, ?_, by simp [hcont], ?_⟩
          · intro o ho
            simp at ho
            subst ho
            simp [hs]
          · simp [hsrv]
          · intro i hi
            simp at hi
          · intro _
            simp only [List.length_singleton]
            left
            simpa [hsrv] using hshort
        · rw [listItemsGo_full limit server fuel offset total p hcont hs hshort] at hrun
          cases hrec : listItemsGo limit server fuel (offset + limit) (some (pageTotal p)) with
          | none =>
            rw [hrec] at hrun
            simp at hrun
          | some tr2 =>
            rw [hrec] at hrun
            obtain rfl : Trace.mk (offset :: tr2.offsets)
                (Except.map (fun its => p.items ++ its) tr2.result) = tr :=
              Option.some.inj hrun
            cases hr2 : tr2.result with
            | error c => simp [Except.map, hr2] at hres
            | ok its2 =>
              obtain rfl : p.items ++ its2 = its := by
                simpa [Except.map, hr2] using hres
              obtain ⟨ih1, ih2, ih3, ih4, ih5, ih6⟩ :=
                ih (offset + limit) (some (pageTotal p)) tr2 its2 hrec hr2
              have hsrv : srvItems server offset = p.items := by simp [srvItems, hs]
              have hstep : ∀ j : Nat, offset + (j + 1) * limit = offset + limit + j * limit := by
                intro j
                ring
              have hfull : (srvItems server offset).length = limit := by
                have hb := hbound offset
                rw [hsrv] at hb ⊢
                omega
              refine ⟨?_, ?_, ?_, ?_, ?_, ?_⟩
              · simp only [List.length_cons, List.range_succ_eq_map, List.map_cons,
                  List.map_map]
                have hcomp : (fun i => offset + i * limit) ∘ Nat.succ =
                    fun i => offset + limit + i * limit := by
                  funext j
                  simp only [Function.comp_apply, Nat.succ_eq_add_one]
                  exact hstep j
                rw [hcomp, ← ih1]
                simp
              · intro o ho
                rcases List.mem_cons.mp ho with rfl | ho2
                · simp [hs]
                · exact ih2 o ho2
              · simp [hsrv, ih3]
              · intro i hi
                cases i with
                | zero =>
                  constructor
                  · simpa using hfull
                  · have hne2 : tr2.offsets ≠ [] := by
                      simp only [List.length_cons] at hi
                      intro hnil
                      rw [hnil] at hi
                      simp at hi
                    have hcont2 : contLoop (offset + limit) (some (pageTotal p)) = true := by
                      cases hc2 : contLoop (offset + limit) (some (pageTotal p)) with
                      | true => rfl
                      | false => exact absurd (ih5.mpr hc2) hne2
                    have hlt : offset + limit < pageTotal p := by
                      simpa [contLoop] using hcont2
                    have hT : srvTotal server (offset + 0 * limit) = pageTotal p := by
                      simp [srvTotal, hs]
                    rw [hT]
                    omega
                | succ j =>
                  have hi2 : j + 1 < tr2.offsets.length := by
                    simpa using hi
                  have := ih4 j hi2
                  rw [hstep j, hstep (j + 1)]
                  exact this
              · simp [hcont]
              · intro _
                simp only [List.length_cons, Nat.add_sub_cancel]
                cases hn2 : tr2.offsets with
                | nil =>
                  have hc2 : contLoop (offset + limit) (some (pageTotal p)) = false :=
                    ih5.mp hn2
                  have hge : pageTotal p ≤ offset + limit := by
                    simpa [contLoop] using hc2
                  right
                  have : srvTotal server offset = pageTotal p := by
                    simp [srvTotal, hs]
                  simp only [hn2, List.length_nil, Nat.zero_mul, Nat.add_zero, this]
                  omega
                | cons o2 rest2 =>
                  have hne2 : tr2.offsets ≠ [] := by simp [hn2]
                  have h6 := ih6 hne2
                  rw [← hn2]
                  have hlen2 : tr2.offsets.length = rest2.length + 1 := by simp [hn2]
                  rw [hlen2]
                  simp only [Nat.add_sub_cancel] at h6 ⊢
                  rw [hlen2] at h6
                  simp only [Nat.add_sub_cancel] at h6
                  rw [hstep rest2.length, hstep (rest2.length + 1)]
                  exact h6

/-- Every aborted `list_items` run carries exit status 1: the only error
source is `sys.exit(1)` in `_make_request`, and `Except.map` never
touches the error. -/
theorem listItemsGo_error_code (limit : Nat) (server : Nat → Option Page) :
    ∀ fuel offset total tr c,
      listItemsGo limit server fuel offset total = some tr →
      tr.result = Except.error c → c = 1 := by
  intro fuel
  induction fuel with
  | zero =>
    intro offset total tr c hrun hres
    simp [listItemsGo] at hrun
  | succ fuel ih =>
    intro offset total tr c hrun hres
    cases hcont : contLoop offset total with
    | false =>
      rw [listItemsGo_stop limit server fuel offset total hcont] at hrun
      obtain rfl : Trace.mk [] (Except.ok []) = tr := Option.some.inj hrun
      simp at hres
    | true =>
      cases hs : server offset with
      | none =>
        rw [listItemsGo_fail limit server fuel offset total hcont hs] at hrun
        obtain rfl : Trace.mk [offset] (Except.error 1) = tr := Option.some.inj hrun
        simpa using hres.symm
      | some p =>
        by_cases hshort : p.items.length < limit
        · rw [listItemsGo_short limit server fuel offset total p hcont hs hshort] at hrun
          obtain rfl : Trace.mk [offset] (Except.ok p.items) = tr := Option.some.inj hrun
          simp at hres
        · rw [listItemsGo_full limit server fuel offset total p hcont hs hshort] at hrun
          cases hrec : listItemsGo limit server fuel (offset + limit) (some (pageTotal p)) with
          | none =>
            rw [hrec] at hrun
            simp at hrun
          | some tr2 =>
            rw [hrec] at hrun
            obtain rfl : Trace.mk (offset :: tr2.offsets)
                (Except.map (fun its => p.items ++ its) tr2.result) = tr :=
              Option.some.inj hrun
            cases hr2 : tr2.result with
            | error c2 =>
              have hc2 : c2 = c := by
                simpa [Except.map, hr2] using hres
              subst hc2
              exact ih (offset + limit) (some (pageTotal p)) tr2 c2 hrec hr2
            | ok its2 => simp [Except.map, hr2] at hres

/-- Embeds `WebflowAgent.get_item`: the single request issued for an item
id (method, endpoint, no body). -/
def get_item_request (collection_id item_id : String) : Request :=
  ⟨"get", "/collections/" ++ collection_id ++ "/items/" ++ item_id, none⟩

/-- Embeds `WebflowAgent.get_item`: builds the endpoint from the
collection and item ids and delegates the single request to
`_make_request`, adding no error handling of its own.  Returns the list
of requests issued together with the outcome. -/
def get_item (collection_id item_id : String)
    (transport : Request → Option Value) : List Request × Except Nat Value :=
  let req := get_item_request collection_id item_id
  ([req], make_request (transport req))

/-- The four keys `update_item` copies from its `data` argument into the
PATCH body. -/
def updatable_keys : List String :=
  ["fieldData", "isArchived", "isDraft", "cmsLocaleId"]

/-- Embeds the body construction of `WebflowAgent.update_item`: starting
from an empty dictionary, copy `fieldData`, `isArchived`, `isDraft` and
`cmsLocaleId` from `data` when present, in that order. -/
def build_update_data (data : List (String × Value)) : List (String × Value) :=
  let u0 : List (String × Value) := []
  let u1 :=
    match getKey data "fieldData" with
    | some v => setKey u0 "fieldData" v
    | none => u0
  let u2 :=
    match getKey data "isArchived" with
    | some v => setKey u1 "isArchived" v
    | none => u1
  let u3 :=
    match getKey data "isDraft" with
    | some v => setKey u2 "isDraft" v
    | none => u2
  match getKey data "cmsLocaleId" with
  | some v => setKey u3 "cmsLocaleId" v
  | none => u3

/-- The single PATCH request issued by `WebflowAgent.update_item`. -/
def update_item_request (collection_id item_id : String)
    (data : List (String × Value)) : Request :=
  ⟨"patch", "/collections/" ++ collection_id ++ "/items/" ++ item_id,
   some (build_update_data data)⟩

/-- Embeds `WebflowAgent.update_item`: builds the filtered body and issues
one PATCH request through `_make_request`. -/
def update_item (collection_id item_id : String) (data : List (String × Value))
    (transport : Request → Option Value) : List Request × Except Nat Value :=
  let req := update_item_request collection_id item_id data
  ([req], make_request (transport req))

/-- Embeds the `update` branch of `main` in `webflow_agent.py` up to the
point where `agent.update_item` is called: build `update_data` from the
command-line arguments, aborting with an error message when `--field-data`
is supplied but `json.loads` rejects it, or when nothing was supplied at
all.  `json_loads` is the injected model of `json.loads`, `none` meaning a
`json.JSONDecodeError`.  The `--field-data` and `--cms-locale-id` values
are checked for truthiness (`None` or the empty string skip the branch),
the boolean flags against `None` only, exactly as in the source. -/
def main_update (field_data : Option String) (is_archived : Option Bool)
    (is_draft : Option Bool) (cms_locale_id : Option String)
    (json_loads : String → Option Value) :
    Except String (List (String × Value)) :=
  let step1 : Except String (List (String × Value)) :=
    match field_data with
    | some s =>
      if s = "" then Except.ok []
      else
        match json_loads s with
        | some v => Except.ok (setKey [] "fieldData" v)
        | none => Except.error "Invalid JSON in field-data"
    | none => Except.ok []
  match step1 with
  | Except.error e => Except.error e
  | Except.ok u0 =>
    let u1 :=
      match is_archived with
      | some b => setKey u0 "isArchived" (Value.bool b)
      | none => u0
    let u2 :=
      match is_draft with
      | some b => setKey u1 "isDraft" (Value.bool b)
      | none => u1
    let u3 :=
      match cms_locale_id with
      | some s => if s = "" then u2 else setKey u2 "cmsLocaleId" (Value.str s)
      | none => u2
    if u3.isEmpty then Except.error "No update data provided" else Except.ok u3

/-- The methods defined on the `WebflowAgent` class in
`webflow_agent.py`, in source order. -/
def webflow_agent_methods : List String :=
  ["__init__", "_make_request", "list_items", "get_item", "update_item",
   "save_content_to_file", "save_items_list"]

/-- Python attribute lookup on a `WebflowAgent` instance: a name outside
the class's method list raises `AttributeError`. -/
def has_method (name : String) : Bool :=
  webflow_agent_methods.contains name

/-- Embeds the method-call step `getattr(agent, name)(...)` of
`example_usage.py`: calling an undefined method raises
`AttributeError`. -/
def call_agent_method (name : String) : Except String Unit :=
  if has_method name then Except.ok () else Except.error ("AttributeError: " ++ name)

/-- Embeds the `example_path` computation of `example_usage.main`:
`["content", "sections", "0", "text"] if "content" in item.get("fieldData", {})
else []`. -/
def example_path (fieldData : List (String × Value)) : List String :=
  if hasKey fieldData "content" then ["content", "sections", "0", "text"] else []

/-- Embeds Example 3 of `example_usage.main`: when `example_path` is
non-empty, call `agent.extract_document_content(item, example_path)`. -/
def example_usage_extract_step (fieldData : List (String × Value)) :
    Except String Unit :=
  if (example_path fieldData).isEmpty then Except.ok ()
  else call_agent_method "extract_document_content"

/-- Embeds Example 4 of `example_usage.main`: when `example_path` is
non-empty, call `agent.update_document_content(item, example_path,
new_content)`. -/
def example_usage_update_step (fieldData : List (String × Value)) :
    Except String Unit :=
  if (example_path fieldData).isEmpty then Except.ok ()
  else call_agent_method "update_document_content"

/-- C3: for every Document `d`, every non-empty path `p` and every value
`v`, the document path accessor satisfies the round-trip equation
`read (write d p v) p = some v`: reading at a path immediately after
writing a value at that same path yields exactly that value. -/
theorem C3_read_write_roundtrip (d : Value) (p : List String) (v : Value)
    (hp : p ≠ []) : read (write d p v) p = some v :=
  read_write_roundtrip d p v hp

theorem C3_read_write_roundtrip_witness :
    (["a", "b"] : List String) ≠ [] ∧
      read (write (Value.obj []) ["a", "b"] (Value.num 5)) ["a", "b"] =
        some (Value.num 5) :=
  ⟨by simp,
   C3_read_write_roundtrip (Value.obj []) ["a", "b"] (Value.num 5) (by simp)⟩

/-- C4: `write d p v` creates or overwrites only keys along `p`.  First
conjunct: reading at any path `q` that diverges from `p` (is off `p`'s
ancestry) is unchanged by the write.  Second conjunct: for every top-level
key `k` other than the head of the path, the subtree at `k` after the
write is structurally identical to the subtree at `k` before it.  (`read`
itself is a pure function of the document and never mutates anything, so
`write` is the only structure-changing operation of the accessor.) -/
theorem C4_write_frame :
    (∀ (d : Value) (p q : List String) (v : Value),
        diverges p q = true → read (write d p v) q = read d q)
    ∧ (∀ (d : Value) (k0 : String) (p' : List String) (v : Value) (k : String),
        k ≠ k0 →
        getKey (asFields (write d (k0 :: p') v)) k = getKey (asFields d) k) :=
  ⟨write_off_path, write_preserves_sibling⟩

theorem C4_write_frame_witness :
    diverges ["a"] ["b"] = true ∧
      read (write (Value.obj [("b", Value.num 2)]) ["a"] Value.null) ["b"] =
        read (Value.obj [("b", Value.num 2)]) ["b"] ∧
      ("b" : String) ≠ "a" ∧
      getKey (asFields (write (Value.obj [("b", Value.num 2)]) ["a"] Value.null)) "b" =
        getKey (asFields (Value.obj [("b", Value.num 2)])) "b" :=
  ⟨by decide,
   C4_write_frame.1 (Value.obj [("b", Value.num 2)]) ["a"] ["b"] Value.null (by decide),
   by decide,
   C4_write_frame.2 (Value.obj [("b", Value.num 2)]) "a" [] Value.null "b" (by decide)⟩

/-- C5: a read whose path fails at some segment — because the current
value is not a mapping, or is a mapping without that segment as a key —
returns absence (`none`) as a normal value, never an error or a default;
in particular reading `["a", "x"]` in `{"a": {"b": 1}}` is absent. -/
theorem C5_read_absent :
    (∀ (fields : List (String × Value)) (seg : String) (rest : List String),
        getKey fields seg = none → read (Value.obj fields) (seg :: rest) = none)
    ∧ (∀ (d : Value) (seg : String) (rest : List String),
        isObj d = false → read d (seg :: rest) = none)
    ∧ read (Value.obj [("a", Value.obj [("b", Value.num 1)])]) ["a", "x"] = none :=
  ⟨fun fields seg rest h =>
      read_cons_none (Value.obj fields) seg rest (by simpa [asFields] using h),
   read_nonobj,
   by rfl⟩

theorem C5_read_absent_witness :
    getKey [] "x" = none ∧ read (Value.obj []) ["x"] = none ∧
      isObj Value.null = false ∧ read Value.null ["x"] = none :=
  ⟨rfl, C5_read_absent.1 [] "x" [] rfl, rfl, C5_read_absent.2.1 Value.null "x" [] rfl⟩

/-- C9: the `WebflowAgent` class defines no path-addressed document read
or write operation: neither `extract_document_content` nor
`update_document_content` is among its methods, and for every item whose
`fieldData` contains the key `"content"`, the corresponding calls made by
`example_usage.main` raise `AttributeError`. -/
theorem C9_no_document_accessor :
    has_method "extract_document_content" = false
    ∧ has_method "update_document_content" = false
    ∧ (∀ fieldData : List (String × Value), hasKey fieldData "content" = true →
        example_usage_extract_step fieldData =
          Except.error "AttributeError: extract_document_content"
        ∧ example_usage_update_step fieldData =
          Except.error "AttributeError: update_document_content") := by
  refine ⟨by decide, by decide, ?_⟩
  intro fieldData h
  have he : has_method "extract_document_content" = false := by decide
  have hu : has_method "update_document_content" = false := by decide
  constructor <;>
    simp [example_usage_extract_step, example_usage_update_step, example_path,
      h, call_agent_method, he, hu]

theorem C9_no_document_accessor_witness :
    hasKey [("content", Value.null)] "content" = true ∧
      example_usage_extract_step [("content", Value.null)] =
        Except.error "AttributeError: extract_document_content" ∧
      example_usage_update_step [("content", Value.null)] =
        Except.error "AttributeError: update_document_content" :=
  ⟨by decide,
   (C9_no_document_accessor.2.2 [("content", Value.null)] (by decide)).1,
   (C9_no_document_accessor.2.2 [("content", Value.null)] (by decide)).2⟩

/-- C8 as stated is false: when `--field-data` is not valid JSON, `main`
does not fall back to treating the payload as an opaque string — it
prints `Invalid JSON in field-data` and returns without issuing any
update.  Concretely, with parsing failing on the payload, the update flow
aborts and in particular never proceeds with any update data. -/
theorem C8_malformed_json_counterexample :
    main_update (some "not json") none none none (fun _ => none) =
      Except.error "Invalid JSON in field-data"
    ∧ (main_update (some "not json") none none none (fun _ => none)).isOk = false :=
  ⟨rfl, rfl⟩

/-- C8 (amended): for every non-empty update payload string that
`json.loads` rejects, the update flow aborts with the error
`Invalid JSON in field-data` and proceeds with no update at all; the
payload is never treated as an opaque string value. -/
theorem C8_malformed_json_aborts (s : String) (is_archived is_draft : Option Bool)
    (cms_locale_id : Option String) (json_loads : String → Option Value)
    (hs : s ≠ "") (hj : json_loads s = none) :
    main_update (some s) is_archived is_draft cms_locale_id json_loads =
      Except.error "Invalid JSON in field-data" := by
  simp [main_update, hs, hj]

theorem C8_malformed_json_aborts_witness :
    ("oops" : String) ≠ "" ∧
      main_update (some "oops") (some true) none none (fun _ => none) =
        Except.error "Invalid JSON in field-data" :=
  ⟨by decide,
   C8_malformed_json_aborts "oops" (some true) none none (fun _ => none)
     (by decide) rfl⟩

/-- C6: `get_item` issues exactly one HTTP request (a GET for the given
item id) and adds no error handling of its own: a successful response is
returned unchanged, and a transport or HTTP error surfaces to the caller
exactly as `_make_request` produced it — the abort with exit status 1 —
neither swallowed nor transformed into a result. -/
theorem C6_get_item_single_request (collection_id item_id : String)
    (transport : Request → Option Value) :
    (get_item collection_id item_id transport).1 =
      [get_item_request collection_id item_id]
    ∧ (get_item collection_id item_id transport).2 =
        make_request (transport (get_item_request collection_id item_id))
    ∧ (∀ v, transport (get_item_request collection_id item_id) = some v →
        (get_item collection_id item_id transport).2 = Except.ok v)
    ∧ (transport (get_item_request collection_id item_id) = none →
        (get_item collection_id item_id transport).2 = Except.error 1) := by
  refine ⟨rfl, rfl, ?_, ?_⟩
  · intro v hv
    simp [get_item, make_request, hv]
  · intro hv
    simp [get_item, make_request, hv]

theorem C6_get_item_single_request_witness :
    (get_item "c" "i" (fun _ => some (Value.str "item"))).2 =
      Except.ok (Value.str "item")
    ∧ (get_item "c" "i" (fun _ => none)).2 = Except.error 1 :=
  ⟨(C6_get_item_single_request "c" "i" (fun _ => some (Value.str "item"))).2.2.1
      (Value.str "item") rfl,
   (C6_get_item_single_request "c" "i" (fun _ => none)).2.2.2 rfl⟩

/-- C7: `update_item` issues one PATCH request whose JSON body contains
exactly those keys among `fieldData`, `isArchived`, `isDraft` and
`cmsLocaleId` that are present in `data`, each with its value copied
unchanged, and no other key of `data`. -/
theorem C7_update_item_body (collection_id item_id : String)
    (data : List (String × Value)) (transport : Request → Option Value)
    (k : String) :
    (update_item collection_id item_id data transport).1 =
      [update_item_request collection_id item_id data]
    ∧ (update_item_request collection_id item_id data).method = "patch"
    ∧ (update_item_request collection_id item_id data).body =
        some (build_update_data data)
    ∧ getKey (build_update_data data) k =
        (if k ∈ updatable_keys then getKey data k else none) := by
  refine ⟨rfl, rfl, rfl, ?_⟩
  by_cases e1 : k = "fieldData"
  · subst e1
    rcases h1 : getKey data "fieldData" with _ | v1 <;>
    rcases h2 : getKey data "isArchived" with _ | v2 <;>
    rcases h3 : getKey data "isDraft" with _ | v3 <;>
    rcases h4 : getKey data "cmsLocaleId" with _ | v4 <;>
      simp [build_update_data, h1, h2, h3, h4, setKey, getKey, updatable_keys]
  · by_cases e2 : k = "isArchived"
    · subst e2
      rcases h1 : getKey data "fieldData" with _ | v1 <;>
      rcases h2 : getKey data "isArchived" with _ | v2 <;>
      rcases h3 : getKey data "isDraft" with _ | v3 <;>
      rcases h4 : getKey data "cmsLocaleId" with _ | v4 <;>
        simp [build_update_data, h1, h2, h3, h4, setKey, getKey, updatable_keys]
    · by_cases e3 : k = "isDraft"
      · subst e3
        rcases h1 : getKey data "fieldData" with _ | v1 <;>
        rcases h2 : getKey data "isArchived" with _ | v2 <;>
        rcases h3 : getKey data "isDraft" with _ | v3 <;>
        rcases h4 : getKey data "cmsLocaleId" with _ | v4 <;>
          simp [build_update_data, h1, h2, h3, h4, setKey, getKey, updatable_keys]
      · by_cases e4 : k = "cmsLocaleId"
        · subst e4
          rcases h1 : getKey data "fieldData" with _ | v1 <;>
          rcases h2 : getKey data "isArchived" with _ | v2 <;>
          rcases h3 : getKey data "isDraft" with _ | v3 <;>
          rcases h4 : getKey data "cmsLocaleId" with _ | v4 <;>
            simp [build_update_data, h1, h2, h3, h4, setKey, getKey, updatable_keys]
        · rcases h1 : getKey data "fieldData" with _ | v1 <;>
          rcases h2 : getKey data "isArchived" with _ | v2 <;>
          rcases h3 : getKey data "isDraft" with _ | v3 <;>
          rcases h4 : getKey data "cmsLocaleId" with _ | v4 <;>
            simp [build_update_data, h1, h2, h3, h4, setKey, getKey, updatable_keys,
              e1, e2, e3, e4, Ne.symm e1, Ne.symm e2, Ne.symm e3, Ne.symm e4]

/-- Mock server whose pages carry no pagination object at all: every page
has 3 items and omits the total. -/
def server_D (_ : Nat) : Option Page :=
  some (mk_page 3 none)

/-- C10: the loop continuation of `list_items` compares the offset
(`limit` times the number of completed full pages) against the most
recently reported pagination total, which defaults to 0 when the response
carries no pagination object; consequently a server whose first response
is exactly full but omits pagination (or reports a total at most the page
size) yields only the first page's items after a single request. -/
theorem C10_offset_total_stop :
    (∀ offset t : Nat, contLoop offset (some t) = decide (offset < t))
    ∧ (∀ items : List Value, pageTotal ⟨items, none⟩ = 0)
    ∧ (∀ (limit fuel : Nat) (server : Nat → Option Page) (p0 : Page),
        2 ≤ fuel → server 0 = some p0 → p0.items.length = limit →
        pageTotal p0 ≤ limit →
        list_items limit server fuel = some ⟨[0], Except.ok p0.items⟩) := by
  refine ⟨fun offset t => rfl, fun items => rfl, ?_⟩
  intro limit fuel server p0 hfuel h0 hlen htot
  obtain ⟨f2, rfl⟩ : ∃ f2, fuel = f2 + 2 := ⟨fuel - 2, by omega⟩
  show listItemsGo limit server (f2 + 1 + 1) 0 none = _
  rw [listItemsGo_full limit server (f2 + 1) 0 none p0 rfl h0 (by omega)]
  have hc2 : contLoop (0 + limit) (some (pageTotal p0)) = false := by
    simp only [contLoop, decide_eq_false_iff_not]
    omega
  rw [listItemsGo_stop limit server f2 (0 + limit) (some (pageTotal p0)) hc2]
  simp [Except.map]

theorem C10_offset_total_stop_witness :
    2 ≤ 2 ∧ server_D 0 = some (mk_page 3 none)
    ∧ (mk_page 3 none).items.length = 3
    ∧ pageTotal (mk_page 3 none) ≤ 3
    ∧ list_items 3 server_D 2 = some ⟨[0], Except.ok (mk_page 3 none).items⟩ :=
  ⟨by decide, rfl, by decide, by decide,
   C10_offset_total_stop.2.2 3 2 server_D (mk_page 3 none) (by decide) rfl
     (by decide) (by decide)⟩

/-- C2: a failing page request anywhere in `list_items` aborts the whole
fetch with exit status 1 and yields no items.  First conjunct: every
aborted run carries exit status 1 and an error result (which by
construction returns no items, not even those already accumulated).
Second conjunct: with a full first page, a total that keeps the loop
going and a transport failure on the second page, the run issues exactly
the two requests at offsets 0 and `limit` — the failing request is not
retried — and aborts with exit status 1, discarding the first page's
items. -/
theorem C2_transport_error_aborts :
    (∀ (limit fuel : Nat) (server : Nat → Option Page) (tr : Trace) (c : Nat),
        list_items limit server fuel = some tr →
        tr.result = Except.error c → c = 1)
    ∧ (∀ (limit fuel : Nat) (server : Nat → Option Page) (p0 : Page),
        2 ≤ fuel → server 0 = some p0 → ¬ p0.items.length < limit →
        limit < pageTotal p0 → server limit = none →
        list_items limit server fuel = some ⟨[0, limit], Except.error 1⟩) := by
  constructor
  · intro limit fuel server tr c hrun hres
    exact listItemsGo_error_code limit server fuel 0 none tr c hrun hres
  · intro limit fuel server p0 hfuel h0 hfull hcont hfail
    obtain ⟨f2, rfl⟩ : ∃ f2, fuel = f2 + 2 := ⟨fuel - 2, by omega⟩
    show listItemsGo limit server (f2 + 1 + 1) 0 none = _
    rw [listItemsGo_full limit server (f2 + 1) 0 none p0 rfl h0 hfull]
    have hc2 : contLoop (0 + limit) (some (pageTotal p0)) = true := by
      simp only [contLoop, decide_eq_true_eq]
      omega
    have hs2 : server (0 + limit) = none := by simpa using hfail
    rw [listItemsGo_fail limit server f2 (0 + limit) (some (pageTotal p0)) hc2 hs2]
    simp [Except.map]

theorem C2_transport_error_aborts_witness :
    2 ≤ 5 ∧ server_fail2 0 = some (mk_page 100 (some 300))
    ∧ ¬ (mk_page 100 (some 300)).items.length < 100
    ∧ 100 < pageTotal (mk_page 100 (some 300))
    ∧ server_fail2 100 = none
    ∧ list_items 100 server_fail2 5 = some ⟨[0, 100], Except.error 1⟩ :=
  ⟨by decide, rfl, by decide, by decide, rfl,
   C2_transport_error_aborts.2 100 5 server_fail2 (mk_page 100 (some 300))
     (by decide) rfl (by decide) (by decide) rfl⟩

/-- C1 (amended: the stopping law is stated for servers whose pages never
exceed the page size, the only case in which the loop's offset equals the
cumulative item count): every terminating successful `list_items` run
requests pages strictly sequentially at offsets 0, `limit`, `2 * limit`,
…, appends every returned item in order, issues at least one request, and
stops exactly when either the cumulative count of retrieved items reaches
the most recently reported total or a page returns fewer items than
`limit` — every non-final page being full and leaving the count below the
reported total.  In particular, for mocked pages of sizes 100, 100, 37
with page size 100 it returns exactly 237 items in exactly 3 requests,
and for pages of sizes 100, 60 with reported total 200 it returns 160
items after the second page and never issues a third request. -/
theorem C1_list_items_pagination :
    (∀ (limit fuel : Nat) (server : Nat → Option Page) (tr : Trace)
        (its : List Value),
        (∀ o, (srvItems server o).length ≤ limit) →
        list_items limit server fuel = some tr →
        tr.result = Except.ok its →
        tr.offsets = (List.range tr.offsets.length).map (fun i => i * limit)
        ∧ (∀ o ∈ tr.offsets, (server o).isSome = true)
        ∧ its = (tr.offsets.map (srvItems server)).flatten
        ∧ (∀ i, i + 1 < tr.offsets.length →
            (srvItems server (i * limit)).length = limit
            ∧ (i + 1) * limit < srvTotal server (i * limit))
        ∧ tr.offsets ≠ []
        ∧ ((srvItems server ((tr.offsets.length - 1) * limit)).length < limit
           ∨ srvTotal server ((tr.offsets.length - 1) * limit) ≤ its.length))
    ∧ run_summary (list_items 100 server_A 10) = some ([0, 100, 200], some 237)
    ∧ run_summary (list_items 100 server_B 10) = some ([0, 100], some 160) := by
  refine ⟨?_, by decide, by decide⟩
  intro limit fuel server tr its hbound hrun hres
  obtain ⟨h1, h2, h3, h4, h5, h6⟩ :=
    listItemsGo_ok_spec limit server hbound fuel 0 none tr its hrun hres
  have hz : ∀ i : Nat, 0 + i * limit = i * limit := fun i => by omega
  have hne : tr.offsets ≠ [] := by
    intro hnil
    have := h5.mp hnil
    simp [contLoop] at this
  have h4z : ∀ i, i + 1 < tr.offsets.length →
      (srvItems server (i * limit)).length = limit
      ∧ (i + 1) * limit < srvTotal server (i * limit) := by
    intro i hi
    have := h4 i hi
    rw [hz i, hz (i + 1)] at this
    exact this
  refine ⟨?_, h2, h3, h4z, hne, ?_⟩
  · calc tr.offsets
        = (List.range tr.offsets.length).map (fun i => 0 + i * limit) := h1
      _ = (List.range tr.offsets.length).map (fun i => i * limit) := by
          congr 1
          funext i
          omega
  · by_cases hshort :
        (srvItems server ((tr.offsets.length - 1) * limit)).length < limit
    · exact Or.inl hshort
    · right
      have h6' := h6 hne
      rw [hz (tr.offsets.length - 1)] at h6'
      rcases h6' with h | h
      · exact absurd h hshort
      · have hlen : its.length = tr.offsets.length * limit := by
          rw [h3, List.length_flatten, List.map_map]
          apply sum_map_const_of
          intro o ho
          rw [h1] at ho
          simp only [List.mem_map, List.mem_range] at ho
          obtain ⟨i, hi, rfl⟩ := ho
          simp only [Function.comp_apply]
          rw [hz i]
          by_cases hlast : i + 1 < tr.offsets.length
          · exact (h4z i hlast).1
          · obtain rfl : i = tr.offsets.length - 1 := by omega
            have hb := hbound ((tr.offsets.length - 1) * limit)
            omega
        rw [hlen]
        omega

/-- C1 as stated is false on the code: the loop compares the offset, not
the cumulative item count, against the reported total.  Against a server
whose first page returns 150 items (page size 100) and reports a total of
150, the cumulative count (150) has reached the reported total (150) and
the page is not short, yet `list_items` issues a second request and
returns 151 items in 2 requests instead of stopping after the first. -/
theorem C1_list_items_pagination_counterexample :
    run_summary (list_items 100 server_C 10) = some ([0, 100], some 151)
    ∧ ¬ (srvItems server_C 0).length < 100
    ∧ srvTotal server_C 0 ≤ (srvItems server_C 0).length := by
  refine ⟨by decide, by decide, by decide⟩

theorem C1_list_items_pagination_witness :
    (∀ o, (srvItems server_triv o).length ≤ 1)
    ∧ ((Trace.mk [0] (Except.ok [])).offsets =
        (List.range (Trace.mk [0] (Except.ok [])).offsets.length).map
          (fun i => i * 1)
      ∧ (∀ o ∈ (Trace.mk [0] (Except.ok [])).offsets,
          (server_triv o).isSome = true)
      ∧ ([] : List Value) =
          ((Trace.mk [0] (Except.ok [])).offsets.map (srvItems server_triv)).flatten
      ∧ (∀ i, i + 1 < (Trace.mk [0] (Except.ok [])).offsets.length →
          (srvItems server_triv (i * 1)).length = 1
          ∧ (i + 1) * 1 < srvTotal server_triv (i * 1))
      ∧ (Trace.mk [0] (Except.ok [])).offsets ≠ []
      ∧ ((srvItems server_triv
            (((Trace.mk [0] (Except.ok [])).offsets.length - 1) * 1)).length < 1
         ∨ srvTotal server_triv
              (((Trace.mk [0] (Except.ok [])).offsets.length - 1) * 1)
             ≤ ([] : List Value).length)) := by
  have hb : ∀ o, (srvItems server_triv o).length ≤ 1 := by
    intro o
    simp [srvItems, server_triv, mk_page]
  exact ⟨hb, C1_list_items_pagination.1 1 2 server_triv
    (Trace.mk [0] (Except.ok [])) [] hb rfl rfl⟩

end WebflowDoc
